import Mathlib

/-!
Verification of the fanCE analytic chemical-evolution solvers.

This file embeds the core solvers of the repository — `waf2017` (the
single-exponential-family solver) and `fance` (the composite rise-fall
solver) from `fance/models.py` — as functions over the real numbers.
NumPy arrays become `List ℝ`, vectorized arithmetic becomes pointwise
`List.map`/`List.zipWith`, and Python exceptions become an `Except`
result.  The Python source evaluates `RuntimeError(...)` in two
validation branches without raising it, after which execution dies with
a `NameError` on an unbound local; the embedding reproduces that
behavior with an explicit `PyError.nameError` value.
-/

namespace FanCE

noncomputable section

/-- Python exception outcomes observable from the solvers: a raised
`RuntimeError` with its message, or a `NameError` on an unbound local
variable (which is what actually happens in the two validation branches
whose `RuntimeError(...)` is constructed but never raised). -/
inductive PyError where
  | runtimeError (msg : String)
  | nameError (name : String)

/-- The resolved Ia delay-time-distribution parameters: the two component
timescales and their normalization weights (models.py lines 57-72). -/
structure DTDParams where
  tauIa1 : ℝ
  tauIa2 : ℝ
  norm1 : ℝ
  norm2 : ℝ

/-- Near-unity perturbation factor applied to `tauSFE` (models.py line 54). -/
def xfac : ℝ := 1.0013478

/-- Near-unity perturbation factor applied to `tauSFH` (models.py line 55). -/
def yfac : ℝ := 1.0016523

/-- Lines 56-78 of models.py: parse the Ia DTD specification.  The
`powerlaw` branch with an unsupported `tDminIa` evaluates
`RuntimeError(...)` without `raise`, so control falls through with the
DTD locals unbound; this is modeled as `.ok none`.  An unknown
`IaDTD_fn` is raised as a `RuntimeError` (line 78 does use `raise`). -/
def resolveDTD (IaDTD_fn : String) (tauIa tDminIa : ℝ) :
    Except PyError (Option DTDParams) :=
  if IaDTD_fn = "exponential" then .ok (some ⟨tauIa, tauIa, 1.0, 0.0⟩)
  else if IaDTD_fn = "powerlaw" then
    if tDminIa = 0.05 then .ok (some ⟨0.25, 3.5, 0.493, 0.507⟩)
    else if tDminIa = 0.15 then .ok (some ⟨0.5, 5.0, 0.478, 0.522⟩)
    else .ok none
  else .error (.runtimeError "IaDTD_fn must be either exponential or powerlaw")

/-- The scalar parameters of `waf2017` (models.py lines 4-21), in
signature order. -/
structure WafParams where
  tauSFE : ℝ
  tauSFH : ℝ
  yOCC : ℝ
  yMgCC : ℝ
  yFeCC : ℝ
  yFeIa : ℝ
  r : ℝ
  eta : ℝ
  tauIa : ℝ
  tDminIa : ℝ
  SolarO : ℝ
  SolarMg : ℝ
  SolarFe : ℝ
  SFH_fn : String
  IaDTD_fn : String

/-- Perturbed SFE timescale, `tauSFE *= xfac` (models.py line 80). -/
def tauSFEp (p : WafParams) : ℝ := p.tauSFE * xfac

/-- Perturbed SFH timescale, `tauSFH *= yfac` (models.py line 81). -/
def tauSFHp (p : WafParams) : ℝ := p.tauSFH * yfac

/-- Depletion timescale `tauDep = tauSFE / (1 + eta - r)` (line 82). -/
def tauDep (p : WafParams) : ℝ := tauSFEp p / (1 + p.eta - p.r)

/-- Harmonic difference of depletion and first Ia timescale (line 83). -/
def tauDepIa1 (p : WafParams) (d : DTDParams) : ℝ :=
  1 / (1 / tauDep p - 1 / d.tauIa1)

/-- Harmonic difference of depletion and second Ia timescale (line 84). -/
def tauDepIa2 (p : WafParams) (d : DTDParams) : ℝ :=
  1 / (1 / tauDep p - 1 / d.tauIa2)

/-- `tauDepSFH` per SFH branch (models.py lines 85-93). -/
def tauDepSFH (p : WafParams) : ℝ :=
  if p.SFH_fn = "constant" then tauDep p
  else 1 / (1 / tauDep p - 1 / tauSFHp p)

/-- `tauIaSFH1` per SFH branch (models.py lines 85-93). -/
def tauIaSFH1 (p : WafParams) (d : DTDParams) : ℝ :=
  if p.SFH_fn = "constant" then d.tauIa1
  else 1 / (1 / d.tauIa1 - 1 / tauSFHp p)

/-- `tauIaSFH2` per SFH branch (models.py lines 85-93). -/
def tauIaSFH2 (p : WafParams) (d : DTDParams) : ℝ :=
  if p.SFH_fn = "constant" then d.tauIa2
  else 1 / (1 / d.tauIa2 - 1 / tauSFHp p)

/-- The SFH timescale actually used after the branch: reset to the
sentinel `1e8` for constant SFH (models.py line 89), else the perturbed
value. -/
def tauSFHeff (p : WafParams) : ℝ :=
  if p.SFH_fn = "constant" then 1e8 else tauSFHp p

/-- Equilibrium O abundance, WAF eq. 28 (models.py line 97). -/
def ZOEq (p : WafParams) : ℝ := p.yOCC * tauDepSFH p / tauSFEp p

/-- Equilibrium Mg abundance (models.py line 98). -/
def ZMgEq (p : WafParams) : ℝ := p.yMgCC * tauDepSFH p / tauSFEp p

/-- Equilibrium CCSN Fe abundance (models.py line 99). -/
def ZFeCCEq (p : WafParams) : ℝ := p.yFeCC * tauDepSFH p / tauSFEp p

/-- Equilibrium Ia Fe abundance, first DTD component (lines 100-104). -/
def ZFeIaEq1 (p : WafParams) (d : DTDParams) : ℝ :=
  d.norm1 * p.yFeIa *
    ((tauDepSFH p / tauSFEp p) * (tauIaSFH1 p d / d.tauIa1) *
      Real.exp (p.tDminIa / tauSFHeff p))

/-- Equilibrium Ia Fe abundance, second DTD component (lines 105-109). -/
def ZFeIaEq2 (p : WafParams) (d : DTDParams) : ℝ :=
  d.norm2 * p.yFeIa *
    ((tauDepSFH p / tauSFEp p) * (tauIaSFH2 p d / d.tauIa2) *
      Real.exp (p.tDminIa / tauSFHeff p))

/-- The relaxation factor multiplying the equilibrium abundance: lines
113-114 for the constant/exponential family, lines 130-131 for linexp. -/
def relaxShape (p : WafParams) (t : ℝ) : ℝ :=
  if p.SFH_fn = "linexp" then
    1 - (tauDepSFH p / t) * (1 - Real.exp (-t / tauDepSFH p))
  else 1 - Real.exp (-t / tauDepSFH p)

/-- Time-dependent O abundance `ZO` (models.py lines 113 and 130). -/
def ZO_t (p : WafParams) (t : ℝ) : ℝ := ZOEq p * relaxShape p t

/-- Time-dependent Mg abundance `ZMg` (models.py lines 114 and 131). -/
def ZMg_t (p : WafParams) (t : ℝ) : ℝ := ZMgEq p * relaxShape p t

/-- Time-dependent CCSN Fe abundance `ZFeCC = ZO * ZFeCCEq / ZOEq`
(models.py lines 115 and 132). -/
def ZFeCC_t (p : WafParams) (t : ℝ) : ℝ := ZO_t p t * ZFeCCEq p / ZOEq p

/-- Closed-form Ia contribution for the constant/exponential family,
WAF eqs. 50-53 (models.py lines 116-127), as a function of the derived
timescales and of `t`; `deltat = t - tDmin`. -/
def ZFeIaExpr (ZEq tauDepIa tauDepSFHv tauIaSFHv tDmin t : ℝ) : ℝ :=
  ZEq * (1 - Real.exp (-(t - tDmin) / tauDepSFHv) -
    (tauDepIa / tauDepSFHv) *
      (Real.exp (-(t - tDmin) / tauIaSFHv) -
        Real.exp (-(t - tDmin) / tauDepSFHv)))

/-- Closed-form Ia contribution for the linexp family, WAF eqs. 56-58
(models.py lines 133-154). -/
def ZFeIaLinexpExpr (ZEq tauDepIa tauDepSFHv tauIaSFHv tDmin t : ℝ) : ℝ :=
  ZEq * (tauIaSFHv / t) *
    ((t - tDmin) / tauIaSFHv +
      (tauDepIa / tauDepSFHv) * Real.exp (-(t - tDmin) / tauIaSFHv) +
      (1 + tauDepSFHv / tauIaSFHv - tauDepIa / tauDepSFHv) *
        Real.exp (-(t - tDmin) / tauDepSFHv) -
      (1 + tauDepSFHv / tauIaSFHv))

/-- Unmasked first Ia component, dispatching on the SFH family. -/
def ZFeIa1Raw (p : WafParams) (d : DTDParams) (t : ℝ) : ℝ :=
  if p.SFH_fn = "linexp" then
    ZFeIaLinexpExpr (ZFeIaEq1 p d) (tauDepIa1 p d) (tauDepSFH p)
      (tauIaSFH1 p d) p.tDminIa t
  else
    ZFeIaExpr (ZFeIaEq1 p d) (tauDepIa1 p d) (tauDepSFH p)
      (tauIaSFH1 p d) p.tDminIa t

/-- Unmasked second Ia component, dispatching on the SFH family. -/
def ZFeIa2Raw (p : WafParams) (d : DTDParams) (t : ℝ) : ℝ :=
  if p.SFH_fn = "linexp" then
    ZFeIaLinexpExpr (ZFeIaEq2 p d) (tauDepIa2 p d) (tauDepSFH p)
      (tauIaSFH2 p d) p.tDminIa t
  else
    ZFeIaExpr (ZFeIaEq2 p d) (tauDepIa2 p d) (tauDepSFH p)
      (tauIaSFH2 p d) p.tDminIa t

/-- First Ia component with the strict zero-before-delay mask
`ZFeIa1[tmod < tDminIa] = 0` (models.py line 157). -/
def ZFeIa1_t (p : WafParams) (d : DTDParams) (t : ℝ) : ℝ :=
  if t < p.tDminIa then 0 else ZFeIa1Raw p d t

/-- Second Ia component with the strict mask (models.py line 158). -/
def ZFeIa2_t (p : WafParams) (d : DTDParams) (t : ℝ) : ℝ :=
  if t < p.tDminIa then 0 else ZFeIa2Raw p d t

/-- Total Fe abundance `ZFe = ZFeCC + ZFeIa1 + ZFeIa2` (line 159). -/
def ZFe_t (p : WafParams) (d : DTDParams) (t : ℝ) : ℝ :=
  ZFeCC_t p t + ZFeIa1_t p d t + ZFeIa2_t p d t

/-- Hypothetical variant of the first Ia component with a non-strict
mask `tmod <= tDminIa`, used to settle the boundary-convention claim. -/
def ZFeIa1Le_t (p : WafParams) (d : DTDParams) (t : ℝ) : ℝ :=
  if t ≤ p.tDminIa then 0 else ZFeIa1Raw p d t

/-- Non-strict-mask variant of the second Ia component. -/
def ZFeIa2Le_t (p : WafParams) (d : DTDParams) (t : ℝ) : ℝ :=
  if t ≤ p.tDminIa then 0 else ZFeIa2Raw p d t

/-- Total Fe abundance under the non-strict mask. -/
def ZFeLe_t (p : WafParams) (d : DTDParams) (t : ℝ) : ℝ :=
  ZFeCC_t p t + ZFeIa1Le_t p d t + ZFeIa2Le_t p d t

/-- Un-normalized SFR weight at time `t` (models.py lines 160-168). -/
def sfrShape (p : WafParams) (t : ℝ) : ℝ :=
  if p.SFH_fn = "constant" then 1
  else if p.SFH_fn = "exponential" then Real.exp (-t / tauSFHeff p)
  else t * Real.exp (-t / tauSFHeff p)

/-- `np.log10`. -/
def log10 (x : ℝ) : ℝ := Real.logb 10 x

/-- `SFR /= np.sum(SFR)` (models.py line 169). -/
def normalizeList (l : List ℝ) : List ℝ := l.map fun x => x / l.sum

/-- The six output sequences of the solvers. -/
structure WafOut where
  SFR : List ℝ
  OH : List ℝ
  MgH : List ℝ
  FeH : List ℝ
  OFe : List ℝ
  MgFe : List ℝ

/-- The output of `waf2017` on a valid configuration (models.py lines
160-176): normalized SFR, bracket abundances, and the two ratio tracks
formed as differences. -/
def wafTracks (tmod : List ℝ) (p : WafParams) (d : DTDParams) : WafOut :=
  let OH := tmod.map fun t => log10 (ZO_t p t / p.SolarO)
  let MgH := tmod.map fun t => log10 (ZMg_t p t / p.SolarMg)
  let FeH := tmod.map fun t => log10 (ZFe_t p d t / p.SolarFe)
  { SFR := normalizeList (tmod.map (sfrShape p))
    OH := OH
    MgH := MgH
    FeH := FeH
    OFe := List.zipWith (fun x y => x - y) OH FeH
    MgFe := List.zipWith (fun x y => x - y) MgH FeH }

/-- The single-exponential-family solver (models.py lines 4-176).  An
invalid `IaDTD_fn` raises a `RuntimeError`; a `powerlaw` DTD with an
unsupported `tDminIa` leaves the DTD locals unbound and dies with
`NameError: tauIa1` at line 83; an invalid `SFH_fn` leaves `tauDepSFH`
unbound and dies with `NameError: tauDepSFH` at line 97 (in both cases
the guarding `RuntimeError(...)` is evaluated but never raised). -/
def waf2017 (tmod : List ℝ) (p : WafParams) : Except PyError WafOut :=
  match resolveDTD p.IaDTD_fn p.tauIa p.tDminIa with
  | .error e => .error e
  | .ok none => .error (.nameError "tauIa1")
  | .ok (some d) =>
    if p.SFH_fn = "constant" ∨ p.SFH_fn = "exponential" ∨ p.SFH_fn = "linexp"
    then .ok (wafTracks tmod p d)
    else .error (.nameError "tauDepSFH")

/-- The valid-configuration payload of the non-strict-mask variant. -/
def wafTracksLe (tmod : List ℝ) (p : WafParams) (d : DTDParams) : WafOut :=
  let OH := tmod.map fun t => log10 (ZO_t p t / p.SolarO)
  let MgH := tmod.map fun t => log10 (ZMg_t p t / p.SolarMg)
  let FeH := tmod.map fun t => log10 (ZFeLe_t p d t / p.SolarFe)
  { SFR := normalizeList (tmod.map (sfrShape p))
    OH := OH
    MgH := MgH
    FeH := FeH
    OFe := List.zipWith (fun x y => x - y) OH FeH
    MgFe := List.zipWith (fun x y => x - y) MgH FeH }

/-- `waf2017` with the strict mask `tmod < tDminIa` replaced by the
non-strict mask `tmod <= tDminIa`; everything else is unchanged. -/
def waf2017Le (tmod : List ℝ) (p : WafParams) : Except PyError WafOut :=
  match resolveDTD p.IaDTD_fn p.tauIa p.tDminIa with
  | .error e => .error e
  | .ok none => .error (.nameError "tauIa1")
  | .ok (some d) =>
    if p.SFH_fn = "constant" ∨ p.SFH_fn = "exponential" ∨ p.SFH_fn = "linexp"
    then .ok (wafTracksLe tmod p d)
    else .error (.nameError "tauDepSFH")

/-- The caller-facing parameters of `fance` (models.py lines 179-200),
with the Python defaults. -/
structure FanceArgs where
  aFeCC : ℝ := 0.45
  tauSFE : ℝ := 1.0
  tauSFH1 : ℝ := 2.0
  tauSFH2 : ℝ := 8.0
  yOCC : ℝ := 0.0071
  yMgCC : ℝ := 0.0007
  yFeCC : ℝ := 0.0005
  yFeIa : ℝ := 0.0007
  fRetCC : ℝ := 1.0
  r : ℝ := 0.4
  eta : ℝ := 0.3
  tauIa : ℝ := 1.5
  tDminIa : ℝ := 0.05
  SolarO : ℝ := 0.0073
  SolarMg : ℝ := 0.0007
  SolarFe : ℝ := 0.0014
  IaDTD_fn : String := "exponential"
  t_start : ℝ := 0.5
  t0 : ℝ := 14.0
  dt : ℝ := 0.02

/-- The internal time grid `np.arange(dt, t0 - t_start + dt, dt)`
(models.py line 238): samples `dt * (k+1)` for `k` below
`ceil((t0 - t_start) / dt)`. -/
def fanceGrid (t_start t0 dt : ℝ) : List ℝ :=
  (List.range (Nat.ceil ((t0 - t_start) / dt))).map fun (k : ℕ) => dt * ((k : ℝ) + 1)

/-- Hard-coded solar O mass fraction used by `fance` (line 245). -/
def fSolarO : ℝ := 0.00733

/-- Hard-coded solar Mg mass fraction used by `fance` (line 246). -/
def fSolarMg : ℝ := 0.000671

/-- Hard-coded solar Fe mass fraction used by `fance` (line 247). -/
def fSolarFe : ℝ := 0.00137

/-- Late-time equilibrium [a/Fe] used by `fance` (line 248). -/
def faFeEq : ℝ := 0.0

/-- CCSN O yield derived from the plateau value `aFeCC` (line 249). -/
def fyOCC (a : FanceArgs) : ℝ :=
  0.973 * fSolarO * (0.00137 / fSolarFe) * (10 : ℝ) ^ (a.aFeCC - 0.45)

/-- CCSN Fe yield derived from `aFeCC` (line 250). -/
def fyFeCC (a : FanceArgs) : ℝ :=
  fyOCC a * (fSolarFe / fSolarO) * (10 : ℝ) ^ (-a.aFeCC)

/-- CCSN Mg yield derived from `aFeCC` (line 251). -/
def fyMgCC (a : FanceArgs) : ℝ := fyOCC a * fSolarMg / fSolarO

/-- Fixed SNIa-to-CCSN mass-ratio constant `mu` (line 254). -/
def fmu : ℝ := 1.1

/-- SNIa Fe yield derived from `aFeCC` and `aFeEq` (lines 253-255). -/
def fyFeIa (a : FanceArgs) : ℝ :=
  fyFeCC a * ((10 : ℝ) ^ (a.aFeCC - faFeEq) - 1) / fmu

/-- Derived O yield after the retention-fraction rescaling (line 259). -/
def fyOCCr (a : FanceArgs) : ℝ := fyOCC a * a.fRetCC

/-- Derived Mg yield after the retention-fraction rescaling (line 260). -/
def fyMgCCr (a : FanceArgs) : ℝ := fyMgCC a * a.fRetCC

/-- Derived Fe yield after the retention-fraction rescaling (line 261). -/
def fyFeCCr (a : FanceArgs) : ℝ := fyFeCC a * a.fRetCC

/-- The `waf2017` parameter record that `fance` passes for a given SFH
tag and SFH timescale; all yields and solar references are the derived
ones, never the caller-supplied ones (models.py lines 243-261). -/
def fanceWafParams (a : FanceArgs) (SFH_fn : String) (tauSFHv : ℝ) : WafParams :=
  { tauSFE := a.tauSFE
    tauSFH := tauSFHv
    yOCC := fyOCCr a
    yMgCC := fyMgCCr a
    yFeCC := fyFeCCr a
    yFeIa := fyFeIa a
    r := a.r
    eta := a.eta
    tauIa := a.tauIa
    tDminIa := a.tDminIa
    SolarO := fSolarO
    SolarMg := fSolarMg
    SolarFe := fSolarFe
    SFH_fn := SFH_fn
    IaDTD_fn := a.IaDTD_fn }

/-- The harmonic rise timescale `tauh` (models.py lines 303-324). -/
def fanceTauh (a : FanceArgs) : ℝ :=
  if a.tauSFH2 ≤ 0 then a.tauSFH1 else 1 / (1 / a.tauSFH1 + 1 / a.tauSFH2)

/-- Un-normalized weight of the falling exponential component, `SFR2`
(models.py lines 322 and 343). -/
def fanceW2 (a : FanceArgs) (tm : ℝ) : ℝ :=
  if a.tauSFH2 ≤ 0 then 1 else Real.exp (-tm / a.tauSFH2)

/-- Un-normalized weight of the harmonic component, `SFRh`, with its
negative pre-factor (models.py line 362). -/
def fanceWh (a : FanceArgs) (tm : ℝ) : ℝ := -Real.exp (-tm / fanceTauh a)

/-- Three-list pointwise combination, the shape of the vectorized
superposition `(SFR2 * Z2 + SFRh * Zh) / SFR` over the time grid. -/
def zipWith3 (f : ℝ → ℝ → ℝ → ℝ) : List ℝ → List ℝ → List ℝ → List ℝ
  | a :: as, b :: bs, c :: cs => f a b c :: zipWith3 f as bs cs
  | _, _, _ => []

/-- The composite rise-fall solver (models.py lines 179-382).  For
`tauSFH1 <= 0` it delegates to `waf2017` (constant or exponential SFH);
otherwise it runs `waf2017` twice, recombines the tracks in linear
metallicity space with weights `SFR2` and `SFRh`, and renormalizes the
summed SFR.  The returned time grid is `tmod + t_start`. -/
def fance (a : FanceArgs) : Except PyError (List ℝ × WafOut) :=
  let tmod := fanceGrid a.t_start a.t0 a.dt
  let t := tmod.map fun x => x + a.t_start
  if a.tauSFH1 ≤ 0 ∧ a.tauSFH2 ≤ 0 then
    (waf2017 tmod (fanceWafParams a "constant" 8.0)).map fun o =>
      (t, { o with SFR := normalizeList o.SFR })
  else if a.tauSFH1 ≤ 0 then
    (waf2017 tmod (fanceWafParams a "exponential" a.tauSFH2)).map fun o =>
      (t, { o with SFR := normalizeList o.SFR })
  else
    let p2 := if a.tauSFH2 ≤ 0 then fanceWafParams a "constant" 8.0
      else fanceWafParams a "exponential" a.tauSFH2
    match waf2017 tmod p2 with
    | .error e => .error e
    | .ok o2 =>
      match waf2017 tmod (fanceWafParams a "exponential" (fanceTauh a)) with
      | .error e => .error e
      | .ok oh =>
        let ZO := zipWith3 (fun tm x2 xh =>
          (fanceW2 a tm * (fSolarO * (10 : ℝ) ^ x2) +
            fanceWh a tm * (fSolarO * (10 : ℝ) ^ xh)) /
            (fanceW2 a tm + fanceWh a tm)) tmod o2.OH oh.OH
        let ZMg := zipWith3 (fun tm x2 xh =>
          (fanceW2 a tm * (fSolarMg * (10 : ℝ) ^ x2) +
            fanceWh a tm * (fSolarMg * (10 : ℝ) ^ xh)) /
            (fanceW2 a tm + fanceWh a tm)) tmod o2.MgH oh.MgH
        let ZFe := zipWith3 (fun tm x2 xh =>
          (fanceW2 a tm * (fSolarFe * (10 : ℝ) ^ x2) +
            fanceWh a tm * (fSolarFe * (10 : ℝ) ^ xh)) /
            (fanceW2 a tm + fanceWh a tm)) tmod o2.FeH oh.FeH
        let OH := ZO.map fun z => log10 (z / fSolarO)
        let MgH := ZMg.map fun z => log10 (z / fSolarMg)
        let FeH := ZFe.map fun z => log10 (z / fSolarFe)
        .ok (t,
          { SFR := normalizeList (tmod.map fun tm => fanceW2 a tm + fanceWh a tm)
            OH := OH
            MgH := MgH
            FeH := FeH
            OFe := List.zipWith (fun x y => x - y) OH FeH
            MgFe := List.zipWith (fun x y => x - y) MgH FeH })

/-- Conversion of a bracket abundance back to a linear mass fraction,
`Z_X = Solar_X * 10 ** [X/H]`, as the specification words it. -/
def bracketToLinear (solar x : ℝ) : ℝ := solar * (10 : ℝ) ^ x

/-- The specification's weighted combination in linear metallicity
space, `Z_X(t) = (w2(t) * Z_2(t) + wh(t) * Z_h(t)) / (w2(t) + wh(t))`. -/
def superposeZ (w2 wh z2 zh : ℝ) : ℝ := (w2 * z2 + wh * zh) / (w2 + wh)

/-- Definition following the words of the specification for the general
(`tau1 > 0`) case of the composite solver: run the two
single-exponential-family calls (`exponential(tau2)`, or `constant` when
`tau2 <= 0`, and `exponential(tauh)` with
`tauh = 1/(1/tau1 + 1/tau2)`, or `tau1` when `tau2 <= 0`), form the
un-normalized weights `w2(t) = exp(-t/tau2)` (or `1`) and
`wh(t) = -exp(-t/tauh)`, convert each track back to linear mass
fractions, superpose them in linear space, reconvert to bracket
notation, recompute the ratio tracks from the combined values, and
normalize the combined weight sequence. -/
def fanceSuperposSpec (a : FanceArgs) : Except PyError (List ℝ × WafOut) :=
  let tmod := fanceGrid a.t_start a.t0 a.dt
  let t := tmod.map fun x => x + a.t_start
  let p2 := if a.tauSFH2 ≤ 0 then fanceWafParams a "constant" 8.0
    else fanceWafParams a "exponential" a.tauSFH2
  match waf2017 tmod p2 with
  | .error e => .error e
  | .ok o2 =>
    match waf2017 tmod (fanceWafParams a "exponential" (fanceTauh a)) with
    | .error e => .error e
    | .ok oh =>
      let ZO := zipWith3 (fun tm x2 xh =>
        superposeZ (fanceW2 a tm) (fanceWh a tm)
          (bracketToLinear fSolarO x2) (bracketToLinear fSolarO xh))
        tmod o2.OH oh.OH
      let ZMg := zipWith3 (fun tm x2 xh =>
        superposeZ (fanceW2 a tm) (fanceWh a tm)
          (bracketToLinear fSolarMg x2) (bracketToLinear fSolarMg xh))
        tmod o2.MgH oh.MgH
      let ZFe := zipWith3 (fun tm x2 xh =>
        superposeZ (fanceW2 a tm) (fanceWh a tm)
          (bracketToLinear fSolarFe x2) (bracketToLinear fSolarFe xh))
        tmod o2.FeH oh.FeH
      let OH := ZO.map fun z => log10 (z / fSolarO)
      let MgH := ZMg.map fun z => log10 (z / fSolarMg)
      let FeH := ZFe.map fun z => log10 (z / fSolarFe)
      .ok (t,
        { SFR := normalizeList (tmod.map fun tm => fanceW2 a tm + fanceWh a tm)
          OH := OH
          MgH := MgH
          FeH := FeH
          OFe := List.zipWith (fun x y => x - y) OH FeH
          MgFe := List.zipWith (fun x y => x - y) MgH FeH })

/-- A concrete example configuration for `waf2017`: exponential SFH,
single-exponential DTD, the documented default parameter values. -/
def pExp : WafParams :=
  ⟨1.0, 8.0, 0.0071, 0.0007, 0.0005, 0.0007, 0.4, 0.3, 1.5, 0.15,
    0.0073, 0.0007, 0.0014, "exponential", "exponential"⟩

theorem sum_map_div (l : List ℝ) (s : ℝ) :
    (l.map fun x => x / s).sum = l.sum / s := by
  induction l with
  | nil => simp
  | cons a t ih => simp [ih, add_div]

theorem normalizeList_sum (l : List ℝ) (h : l.sum ≠ 0) :
    (normalizeList l).sum = 1 := by
  simp [normalizeList, sum_map_div, div_self h]

theorem normalizeList_sum_of_pos (l : List ℝ) (hne : l ≠ [])
    (h : ∀ x ∈ l, 0 < x) : (normalizeList l).sum = 1 :=
  normalizeList_sum l (ne_of_gt (List.sum_pos l h hne))

theorem normalizeList_idem (l : List ℝ) (h : ∀ x ∈ l, 0 < x) :
    normalizeList (normalizeList l) = normalizeList l := by
  by_cases hne : l = []
  · subst hne; simp [normalizeList]
  · have h1 : (normalizeList l).sum = 1 := normalizeList_sum_of_pos l hne h
    show (normalizeList l).map (fun x => x / (normalizeList l).sum) = normalizeList l
    rw [h1]
    simp

theorem sfrShape_pos (p : WafParams) (t : ℝ) (ht : 0 < t) : 0 < sfrShape p t := by
  unfold sfrShape
  split_ifs
  · norm_num
  · exact Real.exp_pos _
  · exact mul_pos ht (Real.exp_pos _)

theorem sfrShape_pos_constexp (p : WafParams)
    (h : p.SFH_fn = "constant" ∨ p.SFH_fn = "exponential") (t : ℝ) :
    0 < sfrShape p t := by
  rcases h with h | h
  · rw [sfrShape, if_pos h]
    norm_num
  · rw [sfrShape, if_neg (by rw [h]; decide), if_pos h]
    exact Real.exp_pos _

theorem waf2017_eq_ok (tmod : List ℝ) (p : WafParams) (d : DTDParams)
    (hd : resolveDTD p.IaDTD_fn p.tauIa p.tDminIa = .ok (some d))
    (hs : p.SFH_fn = "constant" ∨ p.SFH_fn = "exponential" ∨ p.SFH_fn = "linexp") :
    waf2017 tmod p = .ok (wafTracks tmod p d) := by
  unfold waf2017
  rw [hd]
  exact if_pos hs

theorem waf2017_eq_err_dtd (tmod : List ℝ) (p : WafParams) (e : PyError)
    (hd : resolveDTD p.IaDTD_fn p.tauIa p.tDminIa = .error e) :
    waf2017 tmod p = .error e := by
  unfold waf2017
  rw [hd]

theorem waf2017_eq_err_none (tmod : List ℝ) (p : WafParams)
    (hd : resolveDTD p.IaDTD_fn p.tauIa p.tDminIa = .ok none) :
    waf2017 tmod p = .error (.nameError "tauIa1") := by
  unfold waf2017
  rw [hd]

theorem waf2017_eq_err_sfh (tmod : List ℝ) (p : WafParams) (d : DTDParams)
    (hd : resolveDTD p.IaDTD_fn p.tauIa p.tDminIa = .ok (some d))
    (hs : ¬(p.SFH_fn = "constant" ∨ p.SFH_fn = "exponential" ∨ p.SFH_fn = "linexp")) :
    waf2017 tmod p = .error (.nameError "tauDepSFH") := by
  unfold waf2017
  rw [hd]
  exact if_neg hs

theorem waf2017Le_eq_ok (tmod : List ℝ) (p : WafParams) (d : DTDParams)
    (hd : resolveDTD p.IaDTD_fn p.tauIa p.tDminIa = .ok (some d))
    (hs : p.SFH_fn = "constant" ∨ p.SFH_fn = "exponential" ∨ p.SFH_fn = "linexp") :
    waf2017Le tmod p = .ok (wafTracksLe tmod p d) := by
  unfold waf2017Le
  rw [hd]
  exact if_pos hs

theorem waf2017Le_eq_err_dtd (tmod : List ℝ) (p : WafParams) (e : PyError)
    (hd : resolveDTD p.IaDTD_fn p.tauIa p.tDminIa = .error e) :
    waf2017Le tmod p = .error e := by
  unfold waf2017Le
  rw [hd]

theorem waf2017Le_eq_err_none (tmod : List ℝ) (p : WafParams)
    (hd : resolveDTD p.IaDTD_fn p.tauIa p.tDminIa = .ok none) :
    waf2017Le tmod p = .error (.nameError "tauIa1") := by
  unfold waf2017Le
  rw [hd]

theorem waf2017Le_eq_err_sfh (tmod : List ℝ) (p : WafParams) (d : DTDParams)
    (hd : resolveDTD p.IaDTD_fn p.tauIa p.tDminIa = .ok (some d))
    (hs : ¬(p.SFH_fn = "constant" ∨ p.SFH_fn = "exponential" ∨ p.SFH_fn = "linexp")) :
    waf2017Le tmod p = .error (.nameError "tauDepSFH") := by
  unfold waf2017Le
  rw [hd]
  exact if_neg hs

theorem relaxScaled_pos (τ t : ℝ) (hτ : τ ≠ 0) (ht : 0 < t) :
    0 < τ * (1 - Real.exp (-t / τ)) := by
  rcases lt_or_gt_of_ne hτ with h | h
  · have hx : 0 < -t / τ := by
      rw [div_pos_iff]
      right
      exact ⟨neg_lt_zero.mpr ht, h⟩
    have he : 1 < Real.exp (-t / τ) := Real.one_lt_exp_iff.mpr hx
    exact mul_pos_of_neg_of_neg h (by linarith)
  · have hx : -t / τ < 0 := div_neg_of_neg_of_pos (neg_lt_zero.mpr ht) h
    have he : Real.exp (-t / τ) < 1 := Real.exp_lt_one_iff.mpr hx
    exact mul_pos h (by linarith)

theorem relaxScaled_mono (τ a b : ℝ) (hτ : τ ≠ 0) (hab : a ≤ b) :
    τ * (1 - Real.exp (-a / τ)) ≤ τ * (1 - Real.exp (-b / τ)) := by
  rcases lt_or_gt_of_ne hτ with h | h
  · have h1 : -a / τ ≤ -b / τ := by
      rw [div_eq_mul_inv, div_eq_mul_inv]
      exact mul_le_mul_of_nonpos_right (neg_le_neg hab) (le_of_lt (inv_lt_zero.mpr h))
    have h2 : Real.exp (-a / τ) ≤ Real.exp (-b / τ) := Real.exp_le_exp.mpr h1
    have h3 : 1 - Real.exp (-b / τ) ≤ 1 - Real.exp (-a / τ) := by linarith
    exact mul_le_mul_of_nonpos_left h3 (le_of_lt h)
  · have h1 : -b / τ ≤ -a / τ := by
      rw [div_eq_mul_inv, div_eq_mul_inv]
      exact mul_le_mul_of_nonneg_right (neg_le_neg hab) (le_of_lt (inv_pos.mpr h))
    have h2 : Real.exp (-b / τ) ≤ Real.exp (-a / τ) := Real.exp_le_exp.mpr h1
    have h3 : 1 - Real.exp (-a / τ) ≤ 1 - Real.exp (-b / τ) := by linarith
    exact mul_le_mul_of_nonneg_left h3 (le_of_lt h)

theorem fanceGrid_mem_pos (ts t0v dtv : ℝ) (hdt : 0 < dtv) :
    ∀ x ∈ fanceGrid ts t0v dtv, 0 < x := by
  intro x hx
  simp only [fanceGrid, List.mem_map] at hx
  obtain ⟨k, _, rfl⟩ := hx
  have hk : (0 : ℝ) < (k : ℝ) + 1 := by
    have hk0 : (0 : ℝ) ≤ (k : ℝ) := Nat.cast_nonneg k
    linarith
  exact mul_pos hdt hk

theorem fanceGrid_ne_nil (ts t0v dtv : ℝ) (hdt : 0 < dtv) (h : ts < t0v) :
    fanceGrid ts t0v dtv ≠ [] := by
  have hn : 0 < Nat.ceil ((t0v - ts) / dtv) :=
    Nat.ceil_pos.mpr (div_pos (by linarith) hdt)
  unfold fanceGrid
  intro hcon
  rw [List.map_eq_nil_iff, List.range_eq_nil] at hcon
  omega

theorem fanceW_pos (a : FanceArgs) (h1 : 0 < a.tauSFH1) (tm : ℝ) (htm : 0 < tm) :
    0 < fanceW2 a tm + fanceWh a tm := by
  by_cases h2 : a.tauSFH2 ≤ 0
  · rw [fanceW2, if_pos h2, fanceWh, fanceTauh, if_pos h2]
    have hx : -tm / a.tauSFH1 < 0 := div_neg_of_neg_of_pos (neg_lt_zero.mpr htm) h1
    have he : Real.exp (-tm / a.tauSFH1) < 1 := Real.exp_lt_one_iff.mpr hx
    linarith
  · push_neg at h2
    rw [fanceW2, if_neg (not_le.mpr h2), fanceWh, fanceTauh, if_neg (not_le.mpr h2)]
    have hs : 1 / a.tauSFH2 < 1 / a.tauSFH1 + 1 / a.tauSFH2 := by
      have hp : 0 < 1 / a.tauSFH1 := one_div_pos.mpr h1
      linarith
    have harg : -tm / (1 / (1 / a.tauSFH1 + 1 / a.tauSFH2)) < -tm / a.tauSFH2 := by
      rw [div_div_eq_mul_div, div_one, div_eq_mul_one_div (-tm) a.tauSFH2]
      exact mul_lt_mul_of_neg_left hs (neg_lt_zero.mpr htm)
    have he := Real.exp_lt_exp.mpr harg
    linarith

theorem waf2017_ok_inv (tmod : List ℝ) (p : WafParams) (o : WafOut)
    (h : waf2017 tmod p = .ok o) : ∃ d, o = wafTracks tmod p d := by
  cases hd : resolveDTD p.IaDTD_fn p.tauIa p.tDminIa with
  | error e =>
    rw [waf2017_eq_err_dtd _ _ _ hd] at h
    exact Except.noConfusion h
  | ok v =>
    cases v with
    | none =>
      rw [waf2017_eq_err_none _ _ hd] at h
      exact Except.noConfusion h
    | some d =>
      by_cases hs : p.SFH_fn = "constant" ∨ p.SFH_fn = "exponential" ∨ p.SFH_fn = "linexp"
      · rw [waf2017_eq_ok _ _ _ hd hs] at h
        injection h with h2
        exact ⟨d, h2.symm⟩
      · rw [waf2017_eq_err_sfh _ _ _ hd hs] at h
        exact Except.noConfusion h

theorem ZFeIaExpr_at_tDmin (ZEq tauDepIav tauDepSFHv tauIaSFHv tDmin : ℝ) :
    ZFeIaExpr ZEq tauDepIav tauDepSFHv tauIaSFHv tDmin tDmin = 0 := by
  unfold ZFeIaExpr
  rw [sub_self]
  simp

theorem ZFeIaLinexpExpr_at_tDmin (ZEq tauDepIav tauDepSFHv tauIaSFHv tDmin : ℝ) :
    ZFeIaLinexpExpr ZEq tauDepIav tauDepSFHv tauIaSFHv tDmin tDmin = 0 := by
  unfold ZFeIaLinexpExpr
  rw [sub_self]
  simp

theorem ZFeIa1Raw_at_tDmin (p : WafParams) (d : DTDParams) :
    ZFeIa1Raw p d p.tDminIa = 0 := by
  unfold ZFeIa1Raw
  split_ifs
  · exact ZFeIaLinexpExpr_at_tDmin _ _ _ _ _
  · exact ZFeIaExpr_at_tDmin _ _ _ _ _

theorem ZFeIa2Raw_at_tDmin (p : WafParams) (d : DTDParams) :
    ZFeIa2Raw p d p.tDminIa = 0 := by
  unfold ZFeIa2Raw
  split_ifs
  · exact ZFeIaLinexpExpr_at_tDmin _ _ _ _ _
  · exact ZFeIaExpr_at_tDmin _ _ _ _ _

theorem ZFeIa1_t_eq_le (p : WafParams) (d : DTDParams) (t : ℝ) :
    ZFeIa1_t p d t = ZFeIa1Le_t p d t := by
  unfold ZFeIa1_t ZFeIa1Le_t
  rcases lt_trichotomy t p.tDminIa with h | h | h
  · rw [if_pos h, if_pos (le_of_lt h)]
  · subst h
    rw [if_neg (lt_irrefl _), if_pos (le_refl _)]
    exact ZFeIa1Raw_at_tDmin p d
  · rw [if_neg (not_lt.mpr (le_of_lt h)), if_neg (not_le.mpr h)]

theorem ZFeIa2_t_eq_le (p : WafParams) (d : DTDParams) (t : ℝ) :
    ZFeIa2_t p d t = ZFeIa2Le_t p d t := by
  unfold ZFeIa2_t ZFeIa2Le_t
  rcases lt_trichotomy t p.tDminIa with h | h | h
  · rw [if_pos h, if_pos (le_of_lt h)]
  · subst h
    rw [if_neg (lt_irrefl _), if_pos (le_refl _)]
    exact ZFeIa2Raw_at_tDmin p d
  · rw [if_neg (not_lt.mpr (le_of_lt h)), if_neg (not_le.mpr h)]

theorem ZFe_t_eq_le (p : WafParams) (d : DTDParams) (t : ℝ) :
    ZFe_t p d t = ZFeLe_t p d t := by
  unfold ZFe_t ZFeLe_t
  rw [ZFeIa1_t_eq_le, ZFeIa2_t_eq_le]

theorem wafTracks_eq_le (tmod : List ℝ) (p : WafParams) (d : DTDParams) :
    wafTracks tmod p d = wafTracksLe tmod p d := by
  unfold wafTracks wafTracksLe
  simp only [ZFe_t_eq_le]

/-- Claim C10: every Type Ia closed-form expression vanishes exactly at
`deltat = tmod - tDminIa = 0`, in both the constant/exponential family
and the linexp family, and consequently replacing the strict mask
`tmod < tDminIa` by the non-strict mask `tmod <= tDminIa` leaves every
output track of the solver unchanged. -/
theorem ia_zero_at_exact_delay :
    (∀ ZEq tauDepIav tauDepSFHv tauIaSFHv tDmin : ℝ,
      ZFeIaExpr ZEq tauDepIav tauDepSFHv tauIaSFHv tDmin tDmin = 0 ∧
      ZFeIaLinexpExpr ZEq tauDepIav tauDepSFHv tauIaSFHv tDmin tDmin = 0) ∧
    ∀ (tmod : List ℝ) (p : WafParams), waf2017 tmod p = waf2017Le tmod p := by
  constructor
  · intro ZEq tauDepIav tauDepSFHv tauIaSFHv tDmin
    exact ⟨ZFeIaExpr_at_tDmin _ _ _ _ _, ZFeIaLinexpExpr_at_tDmin _ _ _ _ _⟩
  · intro tmod p
    cases hd : resolveDTD p.IaDTD_fn p.tauIa p.tDminIa with
    | error e =>
      rw [waf2017_eq_err_dtd _ _ _ hd, waf2017Le_eq_err_dtd _ _ _ hd]
    | ok v =>
      cases v with
      | none =>
        rw [waf2017_eq_err_none _ _ hd, waf2017Le_eq_err_none _ _ hd]
      | some d =>
        by_cases hs : p.SFH_fn = "constant" ∨ p.SFH_fn = "exponential" ∨ p.SFH_fn = "linexp"
        · rw [waf2017_eq_ok _ _ _ hd hs, waf2017Le_eq_ok _ _ _ hd hs, wafTracks_eq_le]
        · rw [waf2017_eq_err_sfh _ _ _ hd hs, waf2017Le_eq_err_sfh _ _ _ hd hs]

/-- Claim C9: in the single-family solver and in both branches of the
composite solver, the returned ratio tracks are constructed exactly as
the differences `[O/Fe] = [O/H] - [Fe/H]` and `[Mg/Fe] = [Mg/H] - [Fe/H]`
at every grid index. -/
theorem ratio_tracks_are_differences :
    (∀ (tmod : List ℝ) (p : WafParams),
      ((waf2017 tmod p).map fun o => (o.OFe, o.MgFe)) =
        (waf2017 tmod p).map fun o =>
          (List.zipWith (fun x y => x - y) o.OH o.FeH,
            List.zipWith (fun x y => x - y) o.MgH o.FeH)) ∧
    ∀ a : FanceArgs,
      ((fance a).map fun r => (r.2.OFe, r.2.MgFe)) =
        (fance a).map fun r =>
          (List.zipWith (fun x y => x - y) r.2.OH r.2.FeH,
            List.zipWith (fun x y => x - y) r.2.MgH r.2.FeH) := by
  constructor
  · intro tmod p
    cases hw : waf2017 tmod p with
    | error e => rfl
    | ok o =>
      obtain ⟨d, rfl⟩ := waf2017_ok_inv tmod p o hw
      rfl
  · intro a
    simp only [fance]
    by_cases hb1 : a.tauSFH1 ≤ 0 ∧ a.tauSFH2 ≤ 0
    · rw [if_pos hb1]
      cases hw : waf2017 (fanceGrid a.t_start a.t0 a.dt) (fanceWafParams a "constant" 8.0) with
      | error e => rfl
      | ok o =>
        obtain ⟨d, rfl⟩ := waf2017_ok_inv _ _ _ hw
        rfl
    · rw [if_neg hb1]
      by_cases hb2 : a.tauSFH1 ≤ 0
      · rw [if_pos hb2]
        cases hw : waf2017 (fanceGrid a.t_start a.t0 a.dt)
            (fanceWafParams a "exponential" a.tauSFH2) with
        | error e => rfl
        | ok o =>
          obtain ⟨d, rfl⟩ := waf2017_ok_inv _ _ _ hw
          rfl
      · rw [if_neg hb2]
        cases hw2 : waf2017 (fanceGrid a.t_start a.t0 a.dt)
            (if a.tauSFH2 ≤ 0 then fanceWafParams a "constant" 8.0
              else fanceWafParams a "exponential" a.tauSFH2) with
        | error e => rfl
        | ok o2 =>
          cases hwh : waf2017 (fanceGrid a.t_start a.t0 a.dt)
              (fanceWafParams a "exponential" (fanceTauh a)) with
          | error e => rfl
          | ok oh => rfl

/-- Claim C2 counterexample: two calls to the composite solver that
differ only in the supplied `yOCC` argument (1 versus the default
0.0071) return identical outputs, so the returned tracks are not
computed from the supplied yield values. -/
theorem fance_direct_yields_counterexample :
    fance { yOCC := 1 } = fance {} ∧ (1 : ℝ) ≠ 0.0071 := by
  refine ⟨rfl, by norm_num⟩

/-- Claim C2 amended: the composite solver ignores the supplied yield
arguments and solar references entirely — it recomputes all of them
from `aFeCC` and hard-coded solar constants, so any two calls differing
only in those seven arguments return identical outputs. -/
theorem fance_ignores_supplied_yields (a : FanceArgs) (v1 v2 v3 v4 s1 s2 s3 : ℝ) :
    fance { a with
      yOCC := v1
      yMgCC := v2
      yFeCC := v3
      yFeIa := v4
      SolarO := s1
      SolarMg := s2
      SolarFe := s3 } = fance a := by
  cases a
  rfl

/-- Claim C7: with `IaDTD_fn = powerlaw` and an unsupported `tDminIa`
(here 0.10), the solver does not raise the constructed `RuntimeError`
(the `raise` keyword is missing in the source); it instead dies with
`NameError: tauIa1` at the first use of the unbound DTD local.  With an
invalid `SFH_fn` (here the tag gaussian) it likewise dies with
`NameError: tauDepSFH` instead of a structured parameter error.  No
partial track is returned in either case. -/
theorem waf2017_invalid_config_nameerror :
    waf2017 [0.02] ⟨1.0, 8.0, 0.0071, 0.0007, 0.0005, 0.0007, 0.4, 0.3, 1.5, 0.10,
        0.0073, 0.0007, 0.0014, "exponential", "powerlaw"⟩ =
      .error (.nameError "tauIa1") ∧
    waf2017 [0.02] ⟨1.0, 8.0, 0.0071, 0.0007, 0.0005, 0.0007, 0.4, 0.3, 1.5, 0.15,
        0.0073, 0.0007, 0.0014, "gaussian", "exponential"⟩ =
      .error (.nameError "tauDepSFH") := by
  constructor
  · apply waf2017_eq_err_none
    unfold resolveDTD
    rw [if_neg (by decide), if_pos rfl, if_neg (by norm_num), if_neg (by norm_num)]
  · apply waf2017_eq_err_sfh (d := ⟨1.5, 1.5, 1.0, 0.0⟩)
    · unfold resolveDTD
      rw [if_pos rfl]
    · decide

/-- Claim C6: when `tauSFH1 <= 0` the composite solver delegates
entirely to `waf2017` on the same internal `tmod` grid — with an
exponential SFH of timescale `tauSFH2` when `tauSFH2 > 0`, and a
constant SFH when `tauSFH2 <= 0` as well — and returns its output
unchanged together with the time grid `tmod + t_start`. -/
theorem fance_delegates_when_tau1_nonpos (a : FanceArgs) :
    (a.tauSFH1 ≤ 0 → 0 < a.tauSFH2 →
      fance a = (waf2017 (fanceGrid a.t_start a.t0 a.dt)
          (fanceWafParams a "exponential" a.tauSFH2)).map
        fun o => ((fanceGrid a.t_start a.t0 a.dt).map fun x => x + a.t_start, o)) ∧
    (a.tauSFH1 ≤ 0 → a.tauSFH2 ≤ 0 →
      fance a = (waf2017 (fanceGrid a.t_start a.t0 a.dt)
          (fanceWafParams a "constant" 8.0)).map
        fun o => ((fanceGrid a.t_start a.t0 a.dt).map fun x => x + a.t_start, o)) := by
  constructor
  · intro h1 h2
    simp only [fance]
    rw [if_neg (fun hc => absurd hc.2 (not_le.mpr h2)), if_pos h1]
    cases hw : waf2017 (fanceGrid a.t_start a.t0 a.dt)
        (fanceWafParams a "exponential" a.tauSFH2) with
    | error e => rfl
    | ok o =>
      obtain ⟨d, rfl⟩ := waf2017_ok_inv _ _ _ hw
      have hp : ∀ x ∈ (fanceGrid a.t_start a.t0 a.dt).map
          (sfrShape (fanceWafParams a "exponential" a.tauSFH2)), 0 < x := by
        intro x hx
        rw [List.mem_map] at hx
        obtain ⟨t, _, rfl⟩ := hx
        exact sfrShape_pos_constexp _ (Or.inr rfl) t
      have key : normalizeList ((wafTracks (fanceGrid a.t_start a.t0 a.dt)
          (fanceWafParams a "exponential" a.tauSFH2) d).SFR) =
          (wafTracks (fanceGrid a.t_start a.t0 a.dt)
            (fanceWafParams a "exponential" a.tauSFH2) d).SFR :=
        normalizeList_idem _ hp
      rw [Except.map, Except.map, key]
  · intro h1 h2
    simp only [fance]
    rw [if_pos ⟨h1, h2⟩]
    cases hw : waf2017 (fanceGrid a.t_start a.t0 a.dt)
        (fanceWafParams a "constant" 8.0) with
    | error e => rfl
    | ok o =>
      obtain ⟨d, rfl⟩ := waf2017_ok_inv _ _ _ hw
      have hp : ∀ x ∈ (fanceGrid a.t_start a.t0 a.dt).map
          (sfrShape (fanceWafParams a "constant" 8.0)), 0 < x := by
        intro x hx
        rw [List.mem_map] at hx
        obtain ⟨t, _, rfl⟩ := hx
        exact sfrShape_pos_constexp _ (Or.inl rfl) t
      have key : normalizeList ((wafTracks (fanceGrid a.t_start a.t0 a.dt)
          (fanceWafParams a "constant" 8.0) d).SFR) =
          (wafTracks (fanceGrid a.t_start a.t0 a.dt)
            (fanceWafParams a "constant" 8.0) d).SFR :=
        normalizeList_idem _ hp
      rw [Except.map, Except.map, key]

/-- Witness for claim C6 at a concrete input: `tauSFH1 = 0`,
`tauSFH2 = 8` (the default), exercising the exponential delegation. -/
theorem fance_delegates_when_tau1_nonpos_witness :
    ({ tauSFH1 := 0 } : FanceArgs).tauSFH1 ≤ 0 ∧
    (0 : ℝ) < ({ tauSFH1 := 0 } : FanceArgs).tauSFH2 ∧
    fance { tauSFH1 := 0 } = (waf2017 (fanceGrid 0.5 14.0 0.02)
        (fanceWafParams { tauSFH1 := 0 } "exponential" 8.0)).map
      fun o => ((fanceGrid 0.5 14.0 0.02).map fun x => x + 0.5, o) := by
  refine ⟨le_refl _, by norm_num, ?_⟩
  exact (fance_delegates_when_tau1_nonpos { tauSFH1 := 0 }).1 (le_refl _) (by norm_num)

/-- Claim C3: the SFR weight sequence returned by `waf2017` (any SFH
branch) and by `fance` (delegation and general branches alike) sums to
exactly 1 in real arithmetic, because the final operation applied to it
is division by its own sum. -/
theorem sfr_sums_to_one :
    (∀ (tmod : List ℝ) (p : WafParams), tmod ≠ [] → (∀ t ∈ tmod, 0 < t) →
      ((waf2017 tmod p).map fun o => o.SFR.sum) =
        (waf2017 tmod p).map fun _ => (1 : ℝ)) ∧
    ∀ a : FanceArgs, 0 < a.dt → a.t_start < a.t0 →
      ((fance a).map fun r => r.2.SFR.sum) = (fance a).map fun _ => (1 : ℝ) := by
  constructor
  · intro tmod p hne hpos
    cases hw : waf2017 tmod p with
    | error e => rfl
    | ok o =>
      obtain ⟨d, rfl⟩ := waf2017_ok_inv _ _ _ hw
      have hp : ∀ x ∈ tmod.map (sfrShape p), 0 < x := by
        intro x hx
        rw [List.mem_map] at hx
        obtain ⟨t, ht, rfl⟩ := hx
        exact sfrShape_pos p t (hpos t ht)
      have hne2 : tmod.map (sfrShape p) ≠ [] :=
        fun hc => hne (List.map_eq_nil_iff.mp hc)
      have hsum : (wafTracks tmod p d).SFR.sum = 1 :=
        normalizeList_sum_of_pos _ hne2 hp
      rw [Except.map, Except.map, hsum]
  · intro a hdt ht
    have hgridpos := fanceGrid_mem_pos a.t_start a.t0 a.dt hdt
    have hgridne := fanceGrid_ne_nil a.t_start a.t0 a.dt hdt ht
    simp only [fance]
    by_cases hb1 : a.tauSFH1 ≤ 0 ∧ a.tauSFH2 ≤ 0
    · rw [if_pos hb1]
      cases hw : waf2017 (fanceGrid a.t_start a.t0 a.dt)
          (fanceWafParams a "constant" 8.0) with
      | error e => rfl
      | ok o =>
        obtain ⟨d, rfl⟩ := waf2017_ok_inv _ _ _ hw
        have hp : ∀ x ∈ (fanceGrid a.t_start a.t0 a.dt).map
            (sfrShape (fanceWafParams a "constant" 8.0)), 0 < x := by
          intro x hx
          rw [List.mem_map] at hx
          obtain ⟨t, _, rfl⟩ := hx
          exact sfrShape_pos_constexp _ (Or.inl rfl) t
        have hne2 : (fanceGrid a.t_start a.t0 a.dt).map
            (sfrShape (fanceWafParams a "constant" 8.0)) ≠ [] :=
          fun hc => hgridne (List.map_eq_nil_iff.mp hc)
        have key : normalizeList ((wafTracks (fanceGrid a.t_start a.t0 a.dt)
            (fanceWafParams a "constant" 8.0) d).SFR) =
            (wafTracks (fanceGrid a.t_start a.t0 a.dt)
              (fanceWafParams a "constant" 8.0) d).SFR :=
          normalizeList_idem _ hp
        have hsum : (wafTracks (fanceGrid a.t_start a.t0 a.dt)
            (fanceWafParams a "constant" 8.0) d).SFR.sum = 1 :=
          normalizeList_sum_of_pos _ hne2 hp
        rw [Except.map, Except.map]
        show Except.ok (normalizeList ((wafTracks (fanceGrid a.t_start a.t0 a.dt)
            (fanceWafParams a "constant" 8.0) d).SFR)).sum = Except.ok (1 : ℝ)
        rw [key, hsum]
    · rw [if_neg hb1]
      by_cases hb2 : a.tauSFH1 ≤ 0
      · rw [if_pos hb2]
        cases hw : waf2017 (fanceGrid a.t_start a.t0 a.dt)
            (fanceWafParams a "exponential" a.tauSFH2) with
        | error e => rfl
        | ok o =>
          obtain ⟨d, rfl⟩ := waf2017_ok_inv _ _ _ hw
          have hp : ∀ x ∈ (fanceGrid a.t_start a.t0 a.dt).map
              (sfrShape (fanceWafParams a "exponential" a.tauSFH2)), 0 < x := by
            intro x hx
            rw [List.mem_map] at hx
            obtain ⟨t, _, rfl⟩ := hx
            exact sfrShape_pos_constexp _ (Or.inr rfl) t
          have hne2 : (fanceGrid a.t_start a.t0 a.dt).map
              (sfrShape (fanceWafParams a "exponential" a.tauSFH2)) ≠ [] :=
            fun hc => hgridne (List.map_eq_nil_iff.mp hc)
          have key : normalizeList ((wafTracks (fanceGrid a.t_start a.t0 a.dt)
              (fanceWafParams a "exponential" a.tauSFH2) d).SFR) =
              (wafTracks (fanceGrid a.t_start a.t0 a.dt)
                (fanceWafParams a "exponential" a.tauSFH2) d).SFR :=
            normalizeList_idem _ hp
          have hsum : (wafTracks (fanceGrid a.t_start a.t0 a.dt)
              (fanceWafParams a "exponential" a.tauSFH2) d).SFR.sum = 1 :=
            normalizeList_sum_of_pos _ hne2 hp
          rw [Except.map, Except.map]
          show Except.ok (normalizeList ((wafTracks (fanceGrid a.t_start a.t0 a.dt)
              (fanceWafParams a "exponential" a.tauSFH2) d).SFR)).sum = Except.ok (1 : ℝ)
          rw [key, hsum]
      · rw [if_neg hb2]
        push_neg at hb2
        cases hw2 : waf2017 (fanceGrid a.t_start a.t0 a.dt)
            (if a.tauSFH2 ≤ 0 then fanceWafParams a "constant" 8.0
              else fanceWafParams a "exponential" a.tauSFH2) with
        | error e => rfl
        | ok o2 =>
          cases hwh : waf2017 (fanceGrid a.t_start a.t0 a.dt)
              (fanceWafParams a "exponential" (fanceTauh a)) with
          | error e => rfl
          | ok oh =>
            have hp : ∀ x ∈ (fanceGrid a.t_start a.t0 a.dt).map
                (fun tm => fanceW2 a tm + fanceWh a tm), 0 < x := by
              intro x hx
              rw [List.mem_map] at hx
              obtain ⟨tm, htm, rfl⟩ := hx
              exact fanceW_pos a hb2 tm (hgridpos tm htm)
            have hne2 : (fanceGrid a.t_start a.t0 a.dt).map
                (fun tm => fanceW2 a tm + fanceWh a tm) ≠ [] :=
              fun hc => hgridne (List.map_eq_nil_iff.mp hc)
            have hsum : (normalizeList ((fanceGrid a.t_start a.t0 a.dt).map
                fun tm => fanceW2 a tm + fanceWh a tm)).sum = 1 :=
              normalizeList_sum_of_pos _ hne2 hp
            rw [Except.map, Except.map]
            show Except.ok (normalizeList ((fanceGrid a.t_start a.t0 a.dt).map
                fun tm => fanceW2 a tm + fanceWh a tm)).sum = Except.ok (1 : ℝ)
            rw [hsum]

/-- Witness for claim C3 at concrete inputs: the grid `[1, 2]` with the
default exponential configuration, and the default `fance` arguments. -/
theorem sfr_sums_to_one_witness :
    (([1, 2] : List ℝ) ≠ [] ∧ (∀ t ∈ ([1, 2] : List ℝ), 0 < t) ∧
      ((waf2017 [1, 2] pExp).map fun o => o.SFR.sum) =
        (waf2017 [1, 2] pExp).map fun _ => (1 : ℝ)) ∧
    ((0 : ℝ) < 0.02 ∧ (0.5 : ℝ) < 14.0 ∧
      ((fance {}).map fun r => r.2.SFR.sum) = (fance {}).map fun _ => (1 : ℝ)) := by
  have hmem : ∀ t ∈ ([1, 2] : List ℝ), 0 < t := by
    intro t htmem
    simp only [List.mem_cons, List.not_mem_nil, or_false] at htmem
    rcases htmem with rfl | rfl <;> norm_num
  refine ⟨⟨by simp, hmem, ?_⟩, by norm_num, by norm_num, ?_⟩
  · exact sfr_sums_to_one.1 [1, 2] pExp (by simp) hmem
  · exact sfr_sums_to_one.2 {} (by norm_num) (by norm_num)

/-- Claim C1: in the general case `tauSFH1 > 0`, the five abundance
tracks returned by the composite solver are exactly the superposition
described by the specification: with `tauh = 1/(1/tau1 + 1/tau2)` (or
`tau1` when `tau2 <= 0`), un-normalized weights `w2(t) = exp(-t/tau2)`
(or `1` when `tau2 <= 0`) and `wh(t) = -exp(-t/tauh)`, each solver
track is converted back to linear mass fractions, combined as
`Z_X = (w2 Z_2 + wh Z_h) / (w2 + wh)` for O, Mg and Fe, reconverted to
bracket notation, and the ratio tracks recomputed from the combined
bracket values. -/
theorem fance_superposition (a : FanceArgs) (h1 : 0 < a.tauSFH1) :
    ((fance a).map fun r => (r.2.OH, r.2.MgH, r.2.FeH, r.2.OFe, r.2.MgFe)) =
      (fanceSuperposSpec a).map fun r =>
        (r.2.OH, r.2.MgH, r.2.FeH, r.2.OFe, r.2.MgFe) := by
  simp only [fance, fanceSuperposSpec]
  rw [if_neg (fun hc => absurd hc.1 (not_le.mpr h1)), if_neg (not_le.mpr h1)]
  rfl

/-- Witness for claim C1: the default composite configuration, whose
`tauSFH1 = 2` exercises the general superposition branch. -/
theorem fance_superposition_witness :
    (0 : ℝ) < ({} : FanceArgs).tauSFH1 ∧
    ((fance {}).map fun r => (r.2.OH, r.2.MgH, r.2.FeH, r.2.OFe, r.2.MgFe)) =
      (fanceSuperposSpec {}).map fun r =>
        (r.2.OH, r.2.MgH, r.2.FeH, r.2.OFe, r.2.MgFe) :=
  ⟨by norm_num, fance_superposition {} (by norm_num)⟩

theorem wafFeH_pre_delay (tmod : List ℝ) (p : WafParams) (i : ℕ) (hi : i < tmod.length)
    (hdtd : ∃ d, resolveDTD p.IaDTD_fn p.tauIa p.tDminIa = .ok (some d))
    (hsfh : p.SFH_fn = "constant" ∨ p.SFH_fn = "exponential" ∨ p.SFH_fn = "linexp")
    (hlt : tmod.get ⟨i, hi⟩ < p.tDminIa) :
    ((waf2017 tmod p).map fun o => o.FeH.get? i) =
      .ok (some (log10 (ZFeCC_t p (tmod.get ⟨i, hi⟩) / p.SolarFe))) := by
  obtain ⟨d, hd⟩ := hdtd
  rw [waf2017_eq_ok _ _ _ hd hsfh, Except.map]
  have hFeH : (wafTracks tmod p d).FeH =
      tmod.map fun t => log10 (ZFe_t p d t / p.SolarFe) := rfl
  rw [hFeH, List.get?_map, List.get?_eq_get hi]
  have hz : ZFe_t p d (tmod.get ⟨i, hi⟩) = ZFeCC_t p (tmod.get ⟨i, hi⟩) := by
    have e1 : ZFeIa1_t p d (tmod.get ⟨i, hi⟩) = 0 := if_pos hlt
    have e2 : ZFeIa2_t p d (tmod.get ⟨i, hi⟩) = 0 := if_pos hlt
    show ZFeCC_t p (tmod.get ⟨i, hi⟩) + ZFeIa1_t p d (tmod.get ⟨i, hi⟩) +
        ZFeIa2_t p d (tmod.get ⟨i, hi⟩) = ZFeCC_t p (tmod.get ⟨i, hi⟩)
    rw [e1, e2, add_zero, add_zero]
  simp only [Option.map_some']
  rw [hz]

/-- Claim C4: at every grid index where `tmod < tDminIa`, both Type Ia
components are exactly zero (the strict mask), so the total Fe track
there equals the CCSN-only Fe track and the returned `[Fe/H]` value is
unchanged under any alternative valid choice of `tauIa` and
`IaDTD_fn`. -/
theorem waf2017_zero_before_delay (tmod : List ℝ) (p : WafParams)
    (ti' : ℝ) (fn' : String) (i : ℕ) (hi : i < tmod.length)
    (hdtd : ∃ d, resolveDTD p.IaDTD_fn p.tauIa p.tDminIa = .ok (some d))
    (hdtd' : ∃ d, resolveDTD fn' ti' p.tDminIa = .ok (some d))
    (hsfh : p.SFH_fn = "constant" ∨ p.SFH_fn = "exponential" ∨ p.SFH_fn = "linexp")
    (hlt : tmod.get ⟨i, hi⟩ < p.tDminIa) :
    (∀ dd : DTDParams,
      ZFeIa1_t p dd (tmod.get ⟨i, hi⟩) = 0 ∧ ZFeIa2_t p dd (tmod.get ⟨i, hi⟩) = 0) ∧
    ((waf2017 tmod p).map fun o => o.FeH.get? i) =
      .ok (some (log10 (ZFeCC_t p (tmod.get ⟨i, hi⟩) / p.SolarFe))) ∧
    ((waf2017 tmod { p with tauIa := ti', IaDTD_fn := fn' }).map
        fun o => o.FeH.get? i) =
      .ok (some (log10 (ZFeCC_t p (tmod.get ⟨i, hi⟩) / p.SolarFe))) := by
  refine ⟨fun dd => ⟨if_pos hlt, if_pos hlt⟩,
    wafFeH_pre_delay tmod p i hi hdtd hsfh hlt, ?_⟩
  exact wafFeH_pre_delay tmod { p with tauIa := ti', IaDTD_fn := fn' } i hi
    hdtd' hsfh hlt

/-- Witness for claim C4 at a concrete input: the default exponential
configuration with `tDminIa = 0.15` on the grid `[0.1, 1]`, whose first
sample `0.1` lies before the minimum delay, compared against a
`powerlaw` DTD. -/
theorem waf2017_zero_before_delay_witness :
    (([0.1, 1] : List ℝ).get ⟨0, by norm_num⟩ < pExp.tDminIa) ∧
    ((waf2017 [0.1, 1] pExp).map fun o => o.FeH.get? 0) =
      .ok (some (log10 (ZFeCC_t pExp (([0.1, 1] : List ℝ).get ⟨0, by norm_num⟩) /
        pExp.SolarFe))) ∧
    ((waf2017 [0.1, 1] { pExp with tauIa := 0, IaDTD_fn := "powerlaw" }).map
        fun o => o.FeH.get? 0) =
      .ok (some (log10 (ZFeCC_t pExp (([0.1, 1] : List ℝ).get ⟨0, by norm_num⟩) /
        pExp.SolarFe))) := by
  have hdtd : ∃ d, resolveDTD "exponential" (1.5 : ℝ) (0.15 : ℝ) = .ok (some d) := by
    refine ⟨⟨1.5, 1.5, 1.0, 0.0⟩, ?_⟩
    unfold resolveDTD
    rw [if_pos rfl]
  have hdtd' : ∃ d, resolveDTD "powerlaw" (0 : ℝ) (0.15 : ℝ) = .ok (some d) := by
    refine ⟨⟨0.5, 5.0, 0.478, 0.522⟩, ?_⟩
    unfold resolveDTD
    rw [if_neg (by decide), if_pos rfl,
      if_neg (show ¬((0.15 : ℝ) = 0.05) by norm_num), if_pos rfl]
  have hlt : ([0.1, 1] : List ℝ).get ⟨0, by norm_num⟩ < pExp.tDminIa := by
    show (0.1 : ℝ) < (0.15 : ℝ)
    norm_num
  have h := waf2017_zero_before_delay [0.1, 1] pExp 0 "powerlaw" 0 (by norm_num)
    hdtd hdtd' (Or.inr (Or.inl rfl)) hlt
  exact ⟨hlt, h.2.1, h.2.2⟩

theorem logTrack_mono (p : WafParams) (y solar : ℝ)
    (hlin : p.SFH_fn ≠ "linexp") (hy : 0 < y) (hsol : 0 < solar)
    (hse : 0 < tauSFEp p) (hτ : tauDepSFH p ≠ 0)
    (a b : ℝ) (ha : 0 < a) (hab : a ≤ b) :
    log10 (y * tauDepSFH p / tauSFEp p * relaxShape p a / solar) ≤
      log10 (y * tauDepSFH p / tauSFEp p * relaxShape p b / solar) := by
  have hsh : ∀ t : ℝ, relaxShape p t = 1 - Real.exp (-t / tauDepSFH p) := by
    intro t
    rw [relaxShape, if_neg hlin]
  have key : ∀ t : ℝ,
      y * tauDepSFH p / tauSFEp p * (1 - Real.exp (-t / tauDepSFH p)) =
        y / tauSFEp p * (tauDepSFH p * (1 - Real.exp (-t / tauDepSFH p))) := by
    intro t
    ring
  have hposA : 0 < y * tauDepSFH p / tauSFEp p * relaxShape p a := by
    rw [hsh, key]
    exact mul_pos (div_pos hy hse) (relaxScaled_pos _ _ hτ ha)
  have hmono : y * tauDepSFH p / tauSFEp p * relaxShape p a ≤
      y * tauDepSFH p / tauSFEp p * relaxShape p b := by
    rw [hsh, hsh, key, key]
    exact mul_le_mul_of_nonneg_left (relaxScaled_mono _ _ _ hτ hab)
      (le_of_lt (div_pos hy hse))
  exact Real.logb_le_logb_of_le (by norm_num)
    (div_pos hposA hsol) ((div_le_div_right hsol).mpr hmono)

/-- Claim C5: for constant or exponential SFH with strictly positive
yields, positive solar references, valid evolutionary parameters,
`tDminIa >= 0`, and a nondegenerate `tauDepSFH` of either sign, the
returned `[O/H]` and `[Mg/H]` sequences are non-decreasing along any
sorted positive time grid. -/
theorem waf2017_OH_MgH_monotone (tmod : List ℝ) (p : WafParams)
    (hsfh : p.SFH_fn = "constant" ∨ p.SFH_fn = "exponential")
    (hyO : 0 < p.yOCC) (hyMg : 0 < p.yMgCC) (hyFe : 0 < p.yFeCC)
    (hyIa : 0 < p.yFeIa) (hse : 0 < p.tauSFE) (hevo : 0 < 1 + p.eta - p.r)
    (hτ : tauDepSFH p ≠ 0) (hsO : 0 < p.SolarO) (hsMg : 0 < p.SolarMg)
    (htd : 0 ≤ p.tDminIa)
    (hsort : tmod.Pairwise (· ≤ ·)) (hpos : ∀ t ∈ tmod, 0 < t) :
    ∀ out, waf2017 tmod p = .ok out →
      out.OH.Pairwise (· ≤ ·) ∧ out.MgH.Pairwise (· ≤ ·) := by
  intro out hw
  obtain ⟨d, rfl⟩ := waf2017_ok_inv _ _ _ hw
  have hse' : 0 < tauSFEp p := mul_pos hse (by norm_num [xfac])
  have hlin : p.SFH_fn ≠ "linexp" := by
    rcases hsfh with h | h <;> rw [h] <;> decide
  constructor
  · show (tmod.map fun t => log10 (ZO_t p t / p.SolarO)).Pairwise (· ≤ ·)
    rw [List.pairwise_map]
    refine List.Pairwise.imp_of_mem ?_ hsort
    intro x y hx hy hxy
    exact logTrack_mono p p.yOCC p.SolarO hlin hyO hsO hse' hτ x y (hpos x hx) hxy
  · show (tmod.map fun t => log10 (ZMg_t p t / p.SolarMg)).Pairwise (· ≤ ·)
    rw [List.pairwise_map]
    refine List.Pairwise.imp_of_mem ?_ hsort
    intro x y hx hy hxy
    exact logTrack_mono p p.yMgCC p.SolarMg hlin hyMg hsMg hse' hτ x y (hpos x hx) hxy

/-- Witness for claim C5 at a concrete input: the default exponential
configuration on the sorted positive grid `[0.5, 1]`. -/
theorem waf2017_OH_MgH_monotone_witness :
    tauDepSFH pExp ≠ 0 ∧
    ([0.5, 1] : List ℝ).Pairwise (· ≤ ·) ∧
    (∀ t ∈ ([0.5, 1] : List ℝ), 0 < t) ∧
    ∀ out, waf2017 [0.5, 1] pExp = .ok out →
      out.OH.Pairwise (· ≤ ·) ∧ out.MgH.Pairwise (· ≤ ·) := by
  have hτ : tauDepSFH pExp ≠ 0 := by
    rw [tauDepSFH, if_neg (by decide)]
    norm_num [tauDep, tauSFEp, tauSFHp, xfac, yfac, pExp]
  have hsort : ([0.5, 1] : List ℝ).Pairwise (· ≤ ·) := by
    norm_num [List.pairwise_cons]
  have hpos : ∀ t ∈ ([0.5, 1] : List ℝ), 0 < t := by
    intro t htmem
    simp only [List.mem_cons, List.not_mem_nil, or_false] at htmem
    rcases htmem with rfl | rfl <;> norm_num
  refine ⟨hτ, hsort, hpos, ?_⟩
  exact waf2017_OH_MgH_monotone [0.5, 1] pExp (Or.inr rfl) (by norm_num [pExp])
    (by norm_num [pExp]) (by norm_num [pExp]) (by norm_num [pExp])
    (by norm_num [pExp]) (by norm_num [pExp]) hτ (by norm_num [pExp])
    (by norm_num [pExp]) (by norm_num [pExp]) hsort hpos

end

end FanCE
